import Mathlib

/-!
Shallow embedding of the Online Restaurant web application
(`src/Online_Restaurant/models.py`, `utils.py`, `ai_service.py`,
`src/Online Restaurant/app.py`) and proofs about its business rules.

The relational store is modelled as a record of tables (lists of rows in
insertion order).  Python floats (`db.Float` columns, cart prices) are
modelled as rationals `ℚ`: none of the verified rules depends on rounding,
and the literal thresholds (100.0, 0.5, 0.3) are exactly representable.
SQLAlchemy queries become list traversals: `filter`/`countP`/`find?`
correspond to `filter`/`count`/`first`.  `db.session.get(Model, id)` is a
`find?` on the id column.  Autoflush semantics are modelled by sequencing:
a row appended before a count is included in that count, exactly as a
flushed pending row is.
-/

namespace OnlineRestaurant

/-- Row of the `users` table (models.py `User`).  Fields not read by any of
the verified rules (email, password hash, salary, created_at) are omitted. -/
structure User where
  id : Nat
  username : String
  role : String
  balance : ℚ
  is_active : Bool
deriving DecidableEq

/-- Row of the `orders` table (models.py `Order`). -/
structure Order where
  id : Nat
  customer_id : Nat
  delivery_person_id : Option Nat
  status : String
  total_amount : ℚ
  delivery_address : String
  order_notes : String
deriving DecidableEq

/-- Row of the `order_items` table (models.py `OrderItem`). -/
structure OrderItem where
  id : Nat
  order_id : Nat
  menu_item_id : Nat
  quantity : Nat
  subtotal : ℚ
deriving DecidableEq

/-- Row of the `complaints` table (models.py `Complaint`). -/
structure Complaint where
  id : Nat
  filed_by_id : Nat
  filed_against_id : Nat
  order_id : Option Nat
  description : String
  status : String
  manager_decision : Option String
  manager_notes : Option String
deriving DecidableEq

/-- Row of the `warnings` table (models.py `Warning`). -/
structure Warning where
  id : Nat
  user_id : Nat
  reason : String
  complaint_id : Option Nat
deriving DecidableEq

/-- Row of the `blacklist` table (models.py `Blacklist`).  The schema
declares `user_id` unique; the embedding keeps the raw list of inserted
rows so that violations of that uniqueness by the rule code are visible. -/
structure BlacklistEntry where
  id : Nat
  user_id : Nat
  reason : String
deriving DecidableEq

/-- Row of the `delivery_bids` table (models.py `DeliveryBid`). -/
structure DeliveryBid where
  id : Nat
  order_id : Nat
  delivery_person_id : Nat
  bid_amount : Option ℚ
  status : String
deriving DecidableEq

/-- Row of the `knowledge_base_entries` table (models.py `KnowledgeBaseEntry`). -/
structure KnowledgeBaseEntry where
  id : Nat
  question : String
  answer : String
  rating : ℚ
  rating_count : Nat
  flagged : Bool
deriving DecidableEq

/-- Row of the `ai_response_ratings` table (models.py `AIResponseRating`). -/
structure AIResponseRating where
  id : Nat
  kb_entry_id : Option Nat
  user_id : Option Nat
  query : String
  response : String
  rating : ℤ
  source : String
deriving DecidableEq

/-- The persistent store: one list per table, rows in insertion order. -/
structure DB where
  users : List User
  orders : List Order
  order_items : List OrderItem
  complaints : List Complaint
  warnings : List Warning
  blacklist : List BlacklistEntry
  delivery_bids : List DeliveryBid
  kb_entries : List KnowledgeBaseEntry
  ai_ratings : List AIResponseRating
deriving DecidableEq

/-- Fresh autoincrement id for a table given the ids already present. -/
def nextId (ids : List Nat) : Nat := ids.foldr max 0 + 1

/-- utils.py `is_user_blacklisted`: `Blacklist.query.filter_by(user_id=...).first() is not None`. -/
def is_user_blacklisted (db : DB) (user_id : Nat) : Bool :=
  (db.blacklist.find? fun b => b.user_id = user_id).isSome

/-- The Delivered orders of an account, as queried twice by
`calculate_vip_status` (`Order.query.filter(customer_id, status='Delivered')`;
the `func.sum` query filters identically). -/
def deliveredOrders (db : DB) (uid : Nat) : List Order :=
  db.orders.filter fun o => o.customer_id = uid ∧ o.status = "Delivered"

/-- The effect of a promotion in `calculate_vip_status`
(`user.role = 'VIP'; db.session.commit()`): the account's role becomes VIP,
nothing else changes. -/
def promoteToVIP (db : DB) (uid : Nat) : DB :=
  { db with users := db.users.map fun u =>
      if u.id = uid then { u with role := "VIP" } else u }

/-- utils.py `calculate_vip_status` (the spec's `evaluate_and_promote`).
Looks the user up, filters out staff roles, short-circuits on VIP, then
promotes on total Delivered spending > 100.0 or on ≥ 3 Delivered orders
none of which has an Approved complaint. -/
def calculate_vip_status (db : DB) (user_id : Nat) : DB × Bool :=
  match db.users.find? fun u => u.id = user_id with
  | none => (db, false)
  | some user =>
    if user.role = "Chef" ∨ user.role = "DeliveryPerson" ∨ user.role = "Manager" then
      (db, false)
    else if user.role = "VIP" then
      (db, true)
    else
      let total_spent : ℚ := ((deliveredOrders db user_id).map (·.total_amount)).sum
      if total_spent > 100 then
        (promoteToVIP db user_id, true)
      else
        let delivered_orders := deliveredOrders db user_id
        if delivered_orders.length ≥ 3 then
          let order_ids := delivered_orders.map (·.id)
          let approved_complaints := db.complaints.countP fun c =>
            (c.order_id.any fun oid => oid ∈ order_ids) ∧ c.status = "Approved"
          if approved_complaints = 0 then
            (promoteToVIP db user_id, true)
          else (db, false)
        else (db, false)

/-- utils.py `process_complaint_decision`.  Stamps the complaint, and on a
decision of exactly `"Rejected"` appends a warning for the filer, counts the
filer's warnings (the appended one included, as SQLAlchemy autoflush makes
the query see the pending row), then blacklists/deactivates at count ≥ 3 or
demotes a VIP filer at count ≥ 2.  The `none` branch for a missing filer
models a state the schema's foreign key rules out (Python would raise). -/
def process_complaint_decision (db : DB) (complaint_id : Nat) (manager_decision : String)
    (manager_notes : Option String) : DB × Bool :=
  match db.complaints.find? fun c => c.id = complaint_id with
  | none => (db, false)
  | some complaint =>
    let stamped : Complaint :=
      { complaint with
        status := if manager_decision = "Approved" then "Approved" else "Rejected"
        manager_decision := some manager_decision
        manager_notes := manager_notes }
    let db1 : DB :=
      { db with complaints := db.complaints.map fun c =>
          if c.id = complaint_id then stamped else c }
    if manager_decision = "Rejected" then
      let warning : Warning :=
        { id := nextId (db1.warnings.map (·.id))
          user_id := complaint.filed_by_id
          reason := "Rejected complaint: " ++ (⟨complaint.description.data.take 100⟩ : String)
          complaint_id := some complaint_id }
      let db2 : DB := { db1 with warnings := db1.warnings ++ [warning] }
      let warning_count : Nat :=
        db2.warnings.countP fun w => w.user_id = complaint.filed_by_id
      match db2.users.find? fun u => u.id = complaint.filed_by_id with
      | none => (db2, true)
      | some filer =>
        if warning_count ≥ 3 then
          let entry : BlacklistEntry :=
            { id := nextId (db2.blacklist.map (·.id))
              user_id := complaint.filed_by_id
              reason := "3 warnings issued for rejected complaints" }
          ({ db2 with
              blacklist := db2.blacklist ++ [entry]
              users := db2.users.map fun u =>
                if u.id = complaint.filed_by_id then { u with is_active := false } else u }, true)
        else if warning_count ≥ 2 ∧ filer.role = "VIP" then
          ({ db2 with users := db2.users.map fun u =>
              if u.id = complaint.filed_by_id then { u with role := "Customer" } else u }, true)
        else (db2, true)
    else (db1, true)

/-- utils.py `can_user_place_order`: first checks the blacklist, then that the
account exists and is active; returns a flag and an optional failure message. -/
def can_user_place_order (db : DB) (user_id : Nat) : Bool × Option String :=
  if is_user_blacklisted db user_id then
    (false, some "You are blacklisted and cannot place orders.")
  else
    match db.users.find? fun u => u.id = user_id with
    | none => (false, some "Your account is not active.")
    | some user =>
      if user.is_active then (true, none)
      else (false, some "Your account is not active.")

/-- One entry of the session cart in app.py `place_order`
(`{menu_id: {price, quantity, ...}}`, in insertion order). -/
structure CartItem where
  menu_id : Nat
  price : ℚ
  quantity : Nat
deriving DecidableEq

/-- Cart total in app.py `place_order`:
`sum(item['price'] * item['quantity'] for item in cart.values())`. -/
def cartTotal (cart : List CartItem) : ℚ :=
  (cart.map fun it => it.price * (it.quantity : ℚ)).sum

/-- app.py `place_order` (roles Customer/VIP enforced by the route decorator).
Validates eligibility, non-empty cart and balance; on success creates the
order and its line items, debits the balance, and re-evaluates VIP status.
Returns the resulting store and either the new order id or the flashed
failure message. -/
def place_order (db : DB) (user_id : Nat) (cart : List CartItem)
    (delivery_address order_notes : String) : DB × Except String Nat :=
  let check := can_user_place_order db user_id
  if check.1 = false then
    (db, .error (check.2.getD ""))
  else if cart = [] then
    (db, .error "Your cart is empty.")
  else
    match db.users.find? fun u => u.id = user_id with
    | none => (db, .error "Your account is not active.")
    | some user =>
      let total := cartTotal cart
      if user.balance < total then
        (db, .error "Insufficient balance. Please deposit money first.")
      else
        let oid := nextId (db.orders.map (·.id))
        let order : Order :=
          { id := oid, customer_id := user_id, delivery_person_id := none
            status := "Pending", total_amount := total
            delivery_address := delivery_address, order_notes := order_notes }
        let base := nextId (db.order_items.map (·.id))
        let items : List OrderItem := db.order_items ++
          (cart.enum.map fun p =>
            { id := base + p.1, order_id := oid, menu_item_id := p.2.menu_id
              quantity := p.2.quantity, subtotal := p.2.price * p.2.quantity })
        let db1 : DB :=
          { db with
            orders := db.orders ++ [order]
            order_items := items
            users := db.users.map fun u =>
              if u.id = user_id then { u with balance := u.balance - total } else u }
        ((calculate_vip_status db1 user_id).1, .ok oid)

/-- The five values accepted by app.py `update_order_status`
(`new_status in ['Pending', 'Preparing', 'Ready', 'Out for Delivery', 'Delivered']`). -/
def allowed_statuses : List String :=
  ["Pending", "Preparing", "Ready", "Out for Delivery", "Delivered"]

/-- app.py `update_order_status`: a manager may always update; a chef only
while the order is Pending or Preparing; a delivery person only for an order
assigned to them; and the new status must be one of the five allowed values.
Otherwise the store is returned unchanged (the handler only flashes). -/
def update_order_status (db : DB) (current_user : User) (order_id : Nat)
    (new_status : String) : DB :=
  match db.orders.find? fun o => o.id = order_id with
  | none => db
  | some order =>
    let can_update : Prop :=
      current_user.role = "Manager" ∨
      (current_user.role = "Chef" ∧ order.status ∈ (["Pending", "Preparing"] : List String)) ∨
      (current_user.role = "DeliveryPerson" ∧ order.delivery_person_id = some current_user.id)
    if can_update ∧ new_status ∈ allowed_statuses then
      { db with orders := db.orders.map fun o =>
          if o.id = order_id then { o with status := new_status } else o }
    else db

/-- The update performed on the first bid matching
`DeliveryBid.query.filter_by(order_id=..., delivery_person_id=...).first()`
in app.py `assign_order`: that single row's status becomes Accepted. -/
def acceptFirstBid : List DeliveryBid → Nat → Nat → List DeliveryBid
  | [], _, _ => []
  | b :: rest, oid, pid =>
    if b.order_id = oid ∧ b.delivery_person_id = pid then
      { b with status := "Accepted" } :: rest
    else
      b :: acceptFirstBid rest oid pid

/-- The bulk update
`DeliveryBid.query.filter_by(order_id=..., status='Pending').update({'status': 'Rejected'})`
of app.py `assign_order`, applied to one row. -/
def rejectPendingBid (order_id : Nat) (b : DeliveryBid) : DeliveryBid :=
  if b.order_id = order_id ∧ b.status = "Pending" then { b with status := "Rejected" } else b

/-- app.py `assign_order` (manager-only route): sets the order's delivery
person and status, accepts the chosen delivery person's bid (first match, if
any), then rejects every bid on the order still Pending.  The bulk
Pending→Rejected update runs after the accept has been flushed, so the
accepted bid is not re-matched. -/
def assign_order (db : DB) (order_id : Nat) (delivery_person_id : Nat) : DB :=
  match db.orders.find? fun o => o.id = order_id with
  | none => db
  | some _ =>
    let db1 : DB :=
      { db with orders := db.orders.map fun o =>
          if o.id = order_id then
            { o with delivery_person_id := some delivery_person_id
                     status := "Out for Delivery" }
          else o }
    let db2 : DB :=
      { db1 with delivery_bids := acceptFirstBid db1.delivery_bids order_id delivery_person_id }
    { db2 with delivery_bids := db2.delivery_bids.map (rejectPendingBid order_id) }

/-- The query
`AIResponseRating.query.filter(kb_entry_id == kid, rating > 0).all()`
of ai_service.py `rate_ai_response`: the strictly positive ratings linked to
one knowledge-base entry. -/
def positiveRatings (rs : List AIResponseRating) (kid : Nat) : List AIResponseRating :=
  rs.filter fun r => r.kb_entry_id = some kid ∧ r.rating > 0

/-- ai_service.py `rate_ai_response`: rejects out-of-range values, stores the
rating on the record, and for a zero rating with a linked knowledge-base
entry flags that entry and recomputes its average over the strictly positive
ratings (left untouched when no positive rating exists, as the code guards
the recomputation with `if all_ratings:`). -/
def rate_ai_response (db : DB) (rating_id : Nat) (rating_value : ℤ) : DB × Bool :=
  if rating_value < 0 ∨ rating_value > 5 then (db, false)
  else
    match db.ai_ratings.find? fun r => r.id = rating_id with
    | none => (db, false)
    | some rating_record =>
      let db1 : DB :=
        { db with ai_ratings := db.ai_ratings.map fun r =>
            if r.id = rating_id then { r with rating := rating_value } else r }
      if rating_value = 0 then
        match rating_record.kb_entry_id with
        | none => (db1, true)
        | some kid =>
          match db1.kb_entries.find? fun e => e.id = kid with
          | none => (db1, true)
          | some _ =>
            let all_ratings := positiveRatings db1.ai_ratings kid
            ({ db1 with kb_entries := db1.kb_entries.map fun e =>
                if e.id = kid then
                  if all_ratings ≠ [] then
                    { e with flagged := true
                             rating := ((all_ratings.map fun r => (r.rating : ℚ)).sum) /
                               (all_ratings.length : ℚ)
                             rating_count := all_ratings.length }
                  else { e with flagged := true }
                else e }, true)
      else (db1, true)

/-! Text primitives used by ai_service.py, modelled at the character-list
level so that every definition is structurally recursive and computable.
Whitespace is `Char.isWhitespace` (space, tab, CR, LF), matching the
characters relevant to the Python `str` operations on this corpus. -/

/-- Python `str.lower()` on the basic latin range (Lean's `Char.toLower`). -/
def pyLower (s : String) : String := ⟨s.data.map Char.toLower⟩

/-- Python `str.strip()`: drop leading and trailing whitespace. -/
def stripChars (l : List Char) : List Char :=
  ((l.dropWhile fun c => c.isWhitespace).reverse.dropWhile fun c => c.isWhitespace).reverse

/-- Python `str.strip()` on strings. -/
def pyStrip (s : String) : String := ⟨stripChars s.data⟩

/-- Helper for Python `str.split()` (no separator): accumulate the current
chunk in reverse and emit it at each whitespace run, dropping empty chunks. -/
def wsSplitAux (acc : List Char) : List Char → List (List Char)
  | [] => if acc = [] then [] else [acc.reverse]
  | c :: rest =>
    if c.isWhitespace then
      if acc = [] then wsSplitAux [] rest else acc.reverse :: wsSplitAux [] rest
    else wsSplitAux (c :: acc) rest

/-- Python `str.split()` with no argument: split on whitespace runs,
discarding empty chunks. -/
def pySplitWS (s : String) : List String := (wsSplitAux [] s.data).map fun l => ⟨l⟩

/-- Is `needle` an initial segment of `hay`? -/
def isPre : List Char → List Char → Bool
  | [], _ => true
  | _ :: _, [] => false
  | c :: cs, d :: ds => c = d ∧ isPre cs ds

/-- Python `needle in hay` on strings: substring containment. -/
def containsSub (needle : List Char) : List Char → Bool
  | [] => needle.isEmpty
  | d :: rest => isPre needle (d :: rest) || containsSub needle rest

/-- Python `word in text` for strings. -/
def strContains (text word : String) : Bool := containsSub word.data text.data

/-- Python `content.split('\n\n')`: split on each occurrence of two
consecutive newlines, scanning left to right, keeping empty chunks. -/
def paraSplitAux (acc : List Char) : List Char → List (List Char)
  | '\n' :: '\n' :: rest => acc.reverse :: paraSplitAux [] rest
  | c :: rest => paraSplitAux (c :: acc) rest
  | [] => [acc.reverse]

/-- The paragraphs of the knowledge-base file (ai_service.py line
`paragraphs = content.split('\n\n')`). -/
def pyParagraphs (content : String) : List String :=
  (paraSplitAux [] content.data).map fun l => ⟨l⟩

/-- Helper for `re.split(r'[.!?]\s+', content)`: when not in `skipping`
mode, a `.`, `!` or `?` followed by a whitespace character ends the current
chunk and enters `skipping` mode, which greedily consumes the whitespace
run (the `\s+` of the pattern). -/
def headIsWS : List Char → Bool
  | [] => false
  | c :: _ => c.isWhitespace

/-- Chunking for `re.split(r'[.!?]\s+', content)`, see `headIsWS`. -/
def sentSplitAux (skipping : Bool) (acc : List Char) : List Char → List (List Char)
  | [] => [acc.reverse]
  | c :: rest =>
    if skipping ∧ c.isWhitespace then sentSplitAux true acc rest
    else if (c = '.' ∨ c = '!' ∨ c = '?') ∧ headIsWS rest then
      acc.reverse :: sentSplitAux true [] rest
    else sentSplitAux false (c :: acc) rest

/-- ai_service.py `re.split(r'[.!?]\s+', content)`. -/
def pySentences (content : String) : List String :=
  (sentSplitAux false [] content.data).map fun l => ⟨l⟩

/-- ai_service.py stop-word set for query tokenization. -/
def stop_words : List String :=
  ["what", "is", "the", "a", "an", "how", "do", "does", "can", "i", "you", "we",
   "are", "to", "for", "of", "with", "on", "at", "by", "from", "as", "about"]

/-- ai_service.py query tokenization: lowercase, split on whitespace, drop
stop words and tokens of length ≤ 2; if that leaves nothing, fall back to
the raw lowercase tokens. -/
def query_tokens (query : String) : List String :=
  let query_lower := pyLower query
  let query_words := (pySplitWS query_lower).filter fun w => w ∉ stop_words ∧ w.length > 2
  if query_words = [] then pySplitWS query_lower else query_words

/-- ai_service.py scoring, used for both paragraphs and sentences:
`sum(1 for word in query_words if word in text.lower())`. -/
def keyword_score (query_words : List String) (text : String) : Nat :=
  query_words.countP fun w => strContains (pyLower text) w

/-- Stable insertion into a descending-by-score list: an element is placed
before the first strictly smaller score and after equal scores. -/
def insertDesc (x : Nat × String) : List (Nat × String) → List (Nat × String)
  | [] => [x]
  | y :: ys => if x.1 ≥ y.1 then x :: y :: ys else y :: insertDesc x ys

/-- Stable descending sort by score: the unique stable descending order,
hence exactly Python's `list.sort(reverse=True, key=lambda x: x[0])`. -/
def sortDesc : List (Nat × String) → List (Nat × String)
  | [] => []
  | x :: xs => insertDesc x (sortDesc xs)

/-- The paragraph candidate list of `search_local_knowledge_base`:
`(matches, para.strip())` for each paragraph with positive score, sorted
descending by score. -/
def best_matches (query_words : List String) (paras : List String) : List (Nat × String) :=
  sortDesc (paras.filterMap fun para =>
    let m := keyword_score query_words para
    if m > 0 then some (m, pyStrip para) else none)

/-- The sentence-stage fallback of `search_local_knowledge_base`: score the
`[.!?]\s+`-split sentences the same way; if the best sentence scores at
least 2, join the top three with `". "` and ensure a trailing period. -/
def sentence_stage (query_words : List String) (content : String) : Option String :=
  let sentence_matches := sortDesc ((pySentences content).filterMap fun s =>
    let m := keyword_score query_words s
    if m > 0 then some (m, pyStrip s) else none)
  match sentence_matches with
  | [] => none
  | top :: _ =>
    if top.1 ≥ 2 then
      let result := String.intercalate ". " ((sentence_matches.take 3).map (·.2))
      some (if result.data.getLast? = some '.' then result else result ++ ".")
    else none

/-- ai_service.py `search_local_knowledge_base`.  `kb_content` is the text of
the knowledge-base file, `none` when the file does not exist.  The paragraph
stage returns the best paragraph once its score reaches half the token count
(0.5 and 0.3 are exact here, and the integer-vs-threshold comparisons agree
with Python's float ones), appending the runner-up when it reaches 0.3 of
the token count; otherwise the sentence stage runs. -/
def search_local_knowledge_base (kb_content : Option String) (query : String) :
    Option String :=
  match kb_content with
  | none => none
  | some content =>
    let query_words := query_tokens query
    let bm := best_matches query_words (pyParagraphs content)
    match bm with
    | top :: rest =>
      if (top.1 : ℚ) ≥ (query_words.length : ℚ) * 0.5 then
        match rest with
        | second :: _ =>
          if (second.1 : ℚ) ≥ (query_words.length : ℚ) * 0.3 then
            some (top.2 ++ "\n\n" ++ second.2)
          else some top.2
        | [] => some top.2
      else sentence_stage query_words content
    | [] => sentence_stage query_words content

/-- External-call configuration of ai_service.py: whether a Hugging Face API
key is configured, and the text the external completion returns for a query
(the network call is abstracted to this function). -/
structure AIConfig where
  has_api_key : Bool
  llm_response : String → String

/-- The canned guidance message of ai_service.py `get_ai_response` when the
local search finds nothing and no API key is configured. -/
def no_kb_fallback (query : String) : String :=
  "I couldn\x27t find specific information about \x27" ++ query ++
  "\x27 in our knowledge base. The local AI service (Hugging Face) is not configured. " ++
  "You can ask me about our menu, orders, delivery, VIP status, complaints or ratings."

/-- ai_service.py `get_ai_response`: local knowledge-base search first
(`if not answer:` treats both a missing and an empty answer as a miss), the
external completion (source `llm`) when a key is configured, a canned local
message otherwise.  Local answers find-or-create a `KnowledgeBaseEntry`
keyed by the exact query; every answer appends an unrated
`AIResponseRating`.  Returns the store, the answer, the source tag and the
new rating id. -/
def get_ai_response (db : DB) (cfg : AIConfig) (kb_content : Option String)
    (query : String) (user_id : Option Nat) : DB × String × String × Nat :=
  let local_answer := (search_local_knowledge_base kb_content query).getD ""
  let pair : String × String :=
    if local_answer = "" then
      if cfg.has_api_key then (cfg.llm_response query, "llm")
      else (no_kb_fallback query, "local")
    else (local_answer, "local")
  let found_or_created : DB × Option Nat :=
    if pair.2 = "local" then
      match db.kb_entries.find? fun e => e.question = query with
      | some e => (db, some e.id)
      | none =>
        let eid := nextId (db.kb_entries.map (·.id))
        ({ db with kb_entries := db.kb_entries ++
            [{ id := eid, question := query, answer := pair.1
               rating := 0, rating_count := 0, flagged := false }] }, some eid)
    else (db, none)
  let rid := nextId (found_or_created.1.ai_ratings.map (·.id))
  ({ found_or_created.1 with ai_ratings := found_or_created.1.ai_ratings ++
      [{ id := rid, kb_entry_id := found_or_created.2, user_id := user_id
         query := query, response := pair.1, rating := 0, source := pair.2 }] },
   pair.1, pair.2, rid)

/-! Helper lemmas. -/

/-- Mapping with a function that does not change the tested predicate
commutes with `find?`. -/
theorem find?_map_pres {α : Type} (p : α → Bool) (g : α → α) (hg : ∀ x, p (g x) = p x) :
    ∀ l : List α, (l.map g).find? p = (l.find? p).map g := by
  intro l
  induction l with
  | nil => rfl
  | cons x xs ih =>
    rw [List.map_cons]
    cases h : p x with
    | true =>
      rw [List.find?_cons_of_pos _ (by rw [hg x]; exact h), List.find?_cons_of_pos _ h]
      rfl
    | false =>
      rw [List.find?_cons_of_neg _ (by rw [hg x]; simpa using h),
        List.find?_cons_of_neg _ (by simpa using h), ih]

/-! The VIP promotion rule (claims C3 and C9). -/

/-- The promotion criterion as the specification states it: delivered
spending strictly over 100.0, or at least three delivered orders none of
which has an Approved complaint. -/
def vip_criteria (db : DB) (uid : Nat) : Prop :=
  (((deliveredOrders db uid).map (·.total_amount)).sum > 100) ∨
  ((deliveredOrders db uid).length ≥ 3 ∧
    ∀ c ∈ db.complaints, c.status = "Approved" →
      ∀ oid, c.order_id = some oid → oid ∉ (deliveredOrders db uid).map (·.id))

/-- C3.  For an account with role Customer, `calculate_vip_status` promotes
to VIP and returns true exactly when the spec's criterion holds, and returns
false leaving the store unchanged otherwise; an account already VIP returns
true with no change. -/
theorem C3_vip_promotion (db : DB) (uid : Nat) (u : User)
    (hu : db.users.find? (fun x => x.id = uid) = some u) :
    (u.role = "VIP" → calculate_vip_status db uid = (db, true)) ∧
    (u.role = "Customer" →
      (vip_criteria db uid → calculate_vip_status db uid = (promoteToVIP db uid, true)) ∧
      (¬ vip_criteria db uid → calculate_vip_status db uid = (db, false))) := by
  have hcount :
      (db.complaints.countP fun c =>
        (c.order_id.any fun oid => oid ∈ (deliveredOrders db uid).map (·.id)) ∧
          c.status = "Approved") = 0 ↔
      (∀ c ∈ db.complaints, c.status = "Approved" →
        ∀ oid, c.order_id = some oid → oid ∉ (deliveredOrders db uid).map (·.id)) := by
    rw [List.countP_eq_zero]
    constructor
    · intro h c hc happ oid hoid hmem
      exact h c hc (by simp [hoid, happ]; exact List.mem_map.mp hmem)
    · intro h c hc
      cases hoid : c.order_id with
      | none => simp [hoid]
      | some oid =>
        by_cases happ : c.status = "Approved"
        · have hno := h c hc happ oid hoid
          simp only [hoid, decide_eq_true_eq, Option.any_some, not_and, Bool.not_eq_true,
            decide_eq_false_iff_not]
          intro hder
          exact absurd (by simpa using hder) hno
        · simp [happ]
  constructor
  · intro hvip
    simp [calculate_vip_status, hu, hvip]
  · intro hcust
    have hnotstaff : ¬ (u.role = "Chef" ∨ u.role = "DeliveryPerson" ∨ u.role = "Manager") := by
      simp [hcust]
    have hnotvip : ¬ (u.role = "VIP") := by simp [hcust]
    constructor
    · intro hcrit
      simp only [calculate_vip_status, hu]
      rw [if_neg hnotstaff, if_neg hnotvip]
      rcases hcrit with hspend | ⟨hlen, hnone⟩
      · rw [if_pos hspend]
      · by_cases hspend : (((deliveredOrders db uid).map (·.total_amount)).sum > (100 : ℚ))
        · rw [if_pos hspend]
        · rw [if_neg hspend, if_pos hlen, if_pos (hcount.mpr hnone)]
    · intro hcrit
      rw [vip_criteria, not_or, not_and_or] at hcrit
      obtain ⟨hspend, hrest⟩ := hcrit
      simp only [calculate_vip_status, hu]
      rw [if_neg hnotstaff, if_neg hnotvip, if_neg hspend]
      rcases hrest with hlen | hnone
      · rw [if_neg hlen]
      · by_cases hlen : (deliveredOrders db uid).length ≥ 3
        · rw [if_pos hlen, if_neg fun h0 => hnone (hcount.mp h0)]
        · rw [if_neg hlen]

/-- The empty store. -/
def emptyDB : DB :=
  { users := [], orders := [], order_items := [], complaints := [], warnings := []
    blacklist := [], delivery_bids := [], kb_entries := [], ai_ratings := [] }

/-- A store with a Customer account (id 1) holding one Delivered order of
total 150. -/
def c3db : DB :=
  { emptyDB with
    users := [{ id := 1, username := "alice", role := "Customer", balance := 0, is_active := true }]
    orders := [{ id := 1, customer_id := 1, delivery_person_id := none, status := "Delivered"
                 total_amount := 150, delivery_address := "", order_notes := "" }] }

/-- Witness for C3, instantiated at the store `c3db` whose single account is
an eligible Customer. -/
theorem C3_vip_promotion_witness :
    (("Customer" : String) = "VIP" → calculate_vip_status c3db 1 = (c3db, true)) ∧
    (("Customer" : String) = "Customer" →
      (vip_criteria c3db 1 → calculate_vip_status c3db 1 = (promoteToVIP c3db 1, true)) ∧
      (¬ vip_criteria c3db 1 → calculate_vip_status c3db 1 = (c3db, false))) :=
  C3_vip_promotion c3db 1
    { id := 1, username := "alice", role := "Customer", balance := 0, is_active := true }
    rfl

/-- A store with a Visitor account (id 5) holding one Delivered order of
total 150 — a state `calculate_vip_status` does not treat as ineligible. -/
def c9db : DB :=
  { emptyDB with
    users := [{ id := 5, username := "vis", role := "Visitor", balance := 0, is_active := true }]
    orders := [{ id := 1, customer_id := 5, delivery_person_id := none, status := "Delivered"
                 total_amount := 150, delivery_address := "", order_notes := "" }] }

/-- C9 counterexample.  The claim says every account whose role is neither
Customer nor VIP — including Visitor — returns false immediately with no
state change; but `calculate_vip_status` only filters the staff roles, so a
Visitor account meeting the spending criterion is promoted to VIP and the
call returns true. -/
theorem C9_counterexample :
    (calculate_vip_status c9db 5).2 = true ∧
    (calculate_vip_status c9db 5).1.users =
      [{ id := 5, username := "vis", role := "VIP", balance := 0, is_active := true }] := by
  have h : calculate_vip_status c9db 5 = (promoteToVIP c9db 5, true) := by
    have hu : c9db.users.find? (fun u => u.id = 5) =
        some { id := 5, username := "vis", role := "Visitor", balance := 0, is_active := true } :=
      rfl
    simp only [calculate_vip_status, hu]
    rw [if_neg (by decide), if_neg (by decide),
      if_pos (by norm_num [deliveredOrders, c9db, emptyDB])]
  rw [h]
  exact ⟨rfl, rfl⟩

/-- C9 amended: accounts whose role is Chef, DeliveryPerson or Manager are
rejected immediately with no state change; a Visitor account is not
short-circuited (see the counterexample) and flows into the eligibility
checks. -/
theorem C9_staff_ineligible (db : DB) (uid : Nat) (u : User)
    (hu : db.users.find? (fun x => x.id = uid) = some u)
    (hrole : u.role = "Chef" ∨ u.role = "DeliveryPerson" ∨ u.role = "Manager") :
    calculate_vip_status db uid = (db, false) := by
  simp only [calculate_vip_status, hu]
  rw [if_pos hrole]

/-- A store with a Chef account. -/
def c9staffdb : DB :=
  { emptyDB with
    users := [{ id := 2, username := "chef", role := "Chef", balance := 0, is_active := true }] }

/-- Witness for the amended C9: the Chef account is rejected with no
change. -/
theorem C9_staff_ineligible_witness :
    calculate_vip_status c9staffdb 2 = (c9staffdb, false) :=
  C9_staff_ineligible c9staffdb 2
    { id := 2, username := "chef", role := "Chef", balance := 0, is_active := true }
    (by decide) (by decide)

/-! The escalation rule (claims C1, C2 and C10). -/

/-- C1.  Resolving a complaint as Rejected appends exactly one warning for
the filer referencing the complaint, so the filer's warning count becomes
the old count plus one (`N`); if `N ≥ 3` a blacklist entry for the filer is
appended and the filer's account is deactivated (role untouched — blacklist
supersedes demotion); otherwise, if `N ≥ 2` and the filer is a VIP the filer
is demoted to Customer; otherwise no user or blacklist change.  Resolving as
Approved issues no warning and runs no escalation. -/
theorem C1_rejected_escalation (db : DB) (cid : Nat) (notes : Option String)
    (c : Complaint) (hc : db.complaints.find? (fun x => x.id = cid) = some c)
    (filer : User) (hf : db.users.find? (fun u => u.id = c.filed_by_id) = some filer) :
    (∃ w : Warning, w.user_id = c.filed_by_id ∧ w.complaint_id = some cid ∧
      (process_complaint_decision db cid "Rejected" notes).1.warnings = db.warnings ++ [w]) ∧
    (process_complaint_decision db cid "Rejected" notes).1.warnings.countP
        (fun w => w.user_id = c.filed_by_id) =
      db.warnings.countP (fun w => w.user_id = c.filed_by_id) + 1 ∧
    (db.warnings.countP (fun w => w.user_id = c.filed_by_id) + 1 ≥ 3 →
      (∃ e : BlacklistEntry, e.user_id = c.filed_by_id ∧
        (process_complaint_decision db cid "Rejected" notes).1.blacklist =
          db.blacklist ++ [e]) ∧
      (process_complaint_decision db cid "Rejected" notes).1.users =
        db.users.map fun u =>
          if u.id = c.filed_by_id then { u with is_active := false } else u) ∧
    (db.warnings.countP (fun w => w.user_id = c.filed_by_id) + 1 < 3 →
      (process_complaint_decision db cid "Rejected" notes).1.blacklist = db.blacklist ∧
      (db.warnings.countP (fun w => w.user_id = c.filed_by_id) + 1 ≥ 2 ∧ filer.role = "VIP" →
        (process_complaint_decision db cid "Rejected" notes).1.users =
          db.users.map fun u =>
            if u.id = c.filed_by_id then { u with role := "Customer" } else u) ∧
      (¬ (db.warnings.countP (fun w => w.user_id = c.filed_by_id) + 1 ≥ 2 ∧
          filer.role = "VIP") →
        (process_complaint_decision db cid "Rejected" notes).1.users = db.users)) ∧
    ((process_complaint_decision db cid "Approved" notes).2 = true ∧
      (process_complaint_decision db cid "Approved" notes).1.warnings = db.warnings ∧
      (process_complaint_decision db cid "Approved" notes).1.users = db.users ∧
      (process_complaint_decision db cid "Approved" notes).1.blacklist = db.blacklist) := by
  have happr : (process_complaint_decision db cid "Approved" notes).2 = true ∧
      (process_complaint_decision db cid "Approved" notes).1.warnings = db.warnings ∧
      (process_complaint_decision db cid "Approved" notes).1.users = db.users ∧
      (process_complaint_decision db cid "Approved" notes).1.blacklist = db.blacklist := by
    simp [process_complaint_decision, hc]
  have hcnt : ∀ w : Warning, w.user_id = c.filed_by_id →
      List.countP (fun x => decide (x.user_id = c.filed_by_id)) (db.warnings ++ [w]) =
        db.warnings.countP (fun x => decide (x.user_id = c.filed_by_id)) + 1 := by
    intro w hw
    simp [List.countP_append, hw]
  refine ⟨?_, ?_, ?_, ?_, happr⟩
  · simp only [process_complaint_decision, hc, hf, String.reduceEq, reduceIte, hcnt]
    by_cases h3 : db.warnings.countP (fun x => decide (x.user_id = c.filed_by_id)) + 1 ≥ 3
    · rw [if_pos h3]
      refine ⟨_, ?_, ?_, rfl⟩ <;> rfl
    · rw [if_neg h3]
      by_cases hvip : db.warnings.countP (fun x => decide (x.user_id = c.filed_by_id)) + 1 ≥ 2 ∧
          filer.role = "VIP"
      · rw [if_pos hvip]
        refine ⟨_, ?_, ?_, rfl⟩ <;> rfl
      · rw [if_neg hvip]
        refine ⟨_, ?_, ?_, rfl⟩ <;> rfl
  · simp only [process_complaint_decision, hc, hf, String.reduceEq, reduceIte, hcnt]
    by_cases h3 : db.warnings.countP (fun x => decide (x.user_id = c.filed_by_id)) + 1 ≥ 3
    · rw [if_pos h3]
      exact hcnt _ rfl
    · rw [if_neg h3]
      by_cases hvip : db.warnings.countP (fun x => decide (x.user_id = c.filed_by_id)) + 1 ≥ 2 ∧
          filer.role = "VIP"
      · rw [if_pos hvip]
        exact hcnt _ rfl
      · rw [if_neg hvip]
        exact hcnt _ rfl
  · intro h3
    simp only [process_complaint_decision, hc, hf, String.reduceEq, reduceIte, hcnt]
    rw [if_pos h3]
    exact ⟨⟨_, rfl, rfl⟩, rfl⟩
  · intro hlt
    simp only [process_complaint_decision, hc, hf, String.reduceEq, reduceIte, hcnt]
    rw [if_neg (by omega)]
    by_cases hvip : db.warnings.countP (fun w => decide (w.user_id = c.filed_by_id)) + 1 ≥ 2 ∧
        filer.role = "VIP"
    · rw [if_pos hvip]
      exact ⟨rfl, fun _ => rfl, fun hn => absurd hvip hn⟩
    · rw [if_neg hvip]
      exact ⟨rfl, fun hyes => absurd hyes hvip, fun _ => rfl⟩

/-- A store whose single account (id 7) is a VIP with one prior warning, and
one pending complaint (id 4) filed by that account. -/
def c1db : DB :=
  { emptyDB with
    users := [{ id := 7, username := "bob", role := "VIP", balance := 0, is_active := true }]
    complaints := [{ id := 4, filed_by_id := 7, filed_against_id := 9, order_id := none,
                     description := "bad soup", status := "Pending", manager_decision := none,
                     manager_notes := none }]
    warnings := [{ id := 1, user_id := 7, reason := "w", complaint_id := none }] }

/-- Witness for C1 at `c1db`: the VIP filer with one prior warning reaches
count 2 on rejection, hence the demotion clause applies. -/
theorem C1_rejected_escalation_witness :
    (∃ w : Warning, w.user_id = 7 ∧ w.complaint_id = some 4 ∧
      (process_complaint_decision c1db 4 "Rejected" none).1.warnings = c1db.warnings ++ [w]) ∧
    (process_complaint_decision c1db 4 "Rejected" none).1.warnings.countP
        (fun w => w.user_id = 7) =
      c1db.warnings.countP (fun w => w.user_id = 7) + 1 ∧
    (c1db.warnings.countP (fun w => w.user_id = 7) + 1 ≥ 3 →
      (∃ e : BlacklistEntry, e.user_id = 7 ∧
        (process_complaint_decision c1db 4 "Rejected" none).1.blacklist =
          c1db.blacklist ++ [e]) ∧
      (process_complaint_decision c1db 4 "Rejected" none).1.users =
        c1db.users.map fun u => if u.id = 7 then { u with is_active := false } else u) ∧
    (c1db.warnings.countP (fun w => w.user_id = 7) + 1 < 3 →
      (process_complaint_decision c1db 4 "Rejected" none).1.blacklist = c1db.blacklist ∧
      (c1db.warnings.countP (fun w => w.user_id = 7) + 1 ≥ 2 ∧
          ("VIP" : String) = "VIP" →
        (process_complaint_decision c1db 4 "Rejected" none).1.users =
          c1db.users.map fun u => if u.id = 7 then { u with role := "Customer" } else u) ∧
      (¬ (c1db.warnings.countP (fun w => w.user_id = 7) + 1 ≥ 2 ∧
          ("VIP" : String) = "VIP") →
        (process_complaint_decision c1db 4 "Rejected" none).1.users = c1db.users)) ∧
    ((process_complaint_decision c1db 4 "Approved" none).2 = true ∧
      (process_complaint_decision c1db 4 "Approved" none).1.warnings = c1db.warnings ∧
      (process_complaint_decision c1db 4 "Approved" none).1.users = c1db.users ∧
      (process_complaint_decision c1db 4 "Approved" none).1.blacklist = c1db.blacklist) :=
  C1_rejected_escalation c1db 4 none
    { id := 4, filed_by_id := 7, filed_against_id := 9, order_id := none,
      description := "bad soup", status := "Pending", manager_decision := none,
      manager_notes := none } rfl
    { id := 7, username := "bob", role := "VIP", balance := 0, is_active := true } rfl

/-- Every resolution of an existing complaint returns true, whatever the
decision string (helper shared by the complaint-rule claims). -/
theorem process_complaint_decision_returns_true (db : DB) (cid : Nat) (d : String)
    (notes : Option String) (c : Complaint)
    (hc : db.complaints.find? (fun x => x.id = cid) = some c) :
    (process_complaint_decision db cid d notes).2 = true := by
  simp only [process_complaint_decision, hc]
  by_cases hr : d = "Rejected"
  · rw [if_pos hr]
    cases hfind : db.users.find? fun u => decide (u.id = c.filed_by_id) with
    | none => rfl
    | some filer =>
      simp only [apply_ite (fun p : DB × Bool => p.2), ite_self]
  · rw [if_neg hr]

/-- C10.  For an existing complaint and any decision string other than
exactly "Approved", the complaint is stamped Rejected and the call returns
true; only the exact string "Rejected" issues a warning and touches
users/blacklist (any other non-Approved string changes nothing but the
complaint row). -/
theorem C10_non_approved_decision (db : DB) (cid : Nat) (d : String) (notes : Option String)
    (c : Complaint) (hc : db.complaints.find? (fun x => x.id = cid) = some c)
    (hd : d ≠ "Approved") :
    (process_complaint_decision db cid d notes).2 = true ∧
    (process_complaint_decision db cid d notes).1.complaints.find? (fun x => x.id = cid) =
      some { c with status := "Rejected", manager_decision := some d
                    manager_notes := notes } ∧
    (d ≠ "Rejected" → (process_complaint_decision db cid d notes).1 =
      { db with complaints := (process_complaint_decision db cid d notes).1.complaints }) ∧
    (d = "Rejected" → ∃ w : Warning, w.user_id = c.filed_by_id ∧
      (process_complaint_decision db cid d notes).1.warnings = db.warnings ++ [w]) := by
  have hcid : c.id = cid := by
    have h := List.find?_some hc
    simpa using h
  have hstamp : (if d = "Approved" then "Approved" else "Rejected") = "Rejected" := if_neg hd
  have hcompl : (process_complaint_decision db cid d notes).1.complaints =
      db.complaints.map fun x => if x.id = cid then
        { c with status := if d = "Approved" then "Approved" else "Rejected"
                 manager_decision := some d
                 manager_notes := notes }
      else x := by
    simp only [process_complaint_decision, hc]
    by_cases hr : d = "Rejected"
    · rw [if_pos hr]
      cases hfind : db.users.find? fun u => decide (u.id = c.filed_by_id) with
      | none => rfl
      | some filer =>
        simp only [apply_ite (fun p : DB × Bool => p.1.complaints), ite_self]
    · rw [if_neg hr]
  refine ⟨process_complaint_decision_returns_true db cid d notes c hc, ?_, ?_, ?_⟩
  · rw [hcompl, find?_map_pres _ _ ?hg, hc]
    case hg =>
      intro x
      by_cases hx : x.id = cid
      · rw [if_pos hx]
        simp [hcid, hx]
      · rw [if_neg hx]
    · show some (if c.id = cid then _ else c) = _
      rw [if_pos hcid, hstamp]
  · intro hnr
    simp only [process_complaint_decision, hc]
    rw [if_neg hnr]
  · intro hr
    subst hr
    simp only [process_complaint_decision, hc]
    rw [if_pos trivial]
    cases hfind : db.users.find? fun u => decide (u.id = c.filed_by_id) with
    | none =>
      refine ⟨_, ?_, rfl⟩
      rfl
    | some filer =>
      simp only [apply_ite (fun p : DB × Bool => p.1.warnings), ite_self]
      refine ⟨_, ?_, rfl⟩
      rfl

/-- A store with an existing complaint (id 9, filed by account 3). -/
def c10db : DB :=
  { emptyDB with
    users := [{ id := 3, username := "amy", role := "Customer", balance := 0, is_active := true }]
    complaints := [{ id := 9, filed_by_id := 3, filed_against_id := 8, order_id := none,
                     description := "late", status := "Pending", manager_decision := none,
                     manager_notes := none }] }

/-- Witness for C10 with the lowercase decision string "approved": the
complaint is stamped Rejected, the call returns true, and nothing but the
complaint row changes. -/
theorem C10_non_approved_decision_witness :
    (process_complaint_decision c10db 9 "approved" none).2 = true ∧
    (process_complaint_decision c10db 9 "approved" none).1.complaints.find?
        (fun x => x.id = 9) =
      some { id := 9, filed_by_id := 3, filed_against_id := 8, order_id := none,
             description := "late", status := "Rejected", manager_decision := some "approved",
             manager_notes := none } ∧
    (("approved" : String) ≠ "Rejected" → (process_complaint_decision c10db 9 "approved" none).1 =
      { c10db with
        complaints := (process_complaint_decision c10db 9 "approved" none).1.complaints }) ∧
    (("approved" : String) = "Rejected" → ∃ w : Warning, w.user_id = 3 ∧
      (process_complaint_decision c10db 9 "approved" none).1.warnings =
        c10db.warnings ++ [w]) :=
  C10_non_approved_decision c10db 9 "approved" none _ rfl (by decide)

/-- A store whose account 7 already has three warnings and an existing
blacklist entry, with a further pending complaint (id 4) filed by it. -/
def c2db : DB :=
  { emptyDB with
    users := [{ id := 7, username := "bob", role := "Customer", balance := 0,
                is_active := false }]
    complaints := [{ id := 4, filed_by_id := 7, filed_against_id := 9, order_id := none,
                     description := "again", status := "Pending", manager_decision := none,
                     manager_notes := none }]
    warnings := [{ id := 1, user_id := 7, reason := "w1", complaint_id := none },
                 { id := 2, user_id := 7, reason := "w2", complaint_id := none },
                 { id := 3, user_id := 7, reason := "w3", complaint_id := none }]
    blacklist := [{ id := 1, user_id := 7,
                    reason := "3 warnings issued for rejected complaints" }] }

/-- C2.  Resolving a further complaint as Rejected against a filer who is
already blacklisted (three warnings, one blacklist entry) makes the rule
insert a second `Blacklist` row for the same account: the rule never checks
for an existing entry, so blacklisting is not idempotent as the claim
states.  (Against the real schema, whose `blacklist.user_id` column is
declared unique, this insert raises an IntegrityError and aborts the whole
resolution instead.) -/
theorem C2_duplicate_blacklist_entry :
    ((process_complaint_decision c2db 4 "Rejected" none).1.blacklist.countP
      fun b => b.user_id = 7) = 2 := by
  decide

/-! Order placement (claim C5). -/

/-- C5.  When the acting account's balance is strictly below the cart total,
`place_order` leaves the store untouched (no order row, no line items, no
balance change) and returns a failure message.  Every earlier validation
failure (blacklist, inactive account, empty cart) also returns the store
unchanged, so the conclusion holds on every path compatible with the
hypothesis. -/
theorem C5_insufficient_balance (db : DB) (uid : Nat) (cart : List CartItem)
    (addr nts : String) (u : User)
    (hu : db.users.find? (fun x => x.id = uid) = some u)
    (hbal : u.balance < cartTotal cart) :
    (place_order db uid cart addr nts).1 = db ∧
    ∃ msg, (place_order db uid cart addr nts).2 = Except.error msg := by
  simp only [place_order]
  by_cases hchk : (can_user_place_order db uid).1 = false
  · rw [if_pos hchk]
    exact ⟨rfl, _, rfl⟩
  · rw [if_neg hchk]
    by_cases hcart : cart = []
    · rw [if_pos hcart]
      exact ⟨rfl, _, rfl⟩
    · rw [if_neg hcart]
      simp only [hu]
      rw [if_pos hbal]
      exact ⟨rfl, _, rfl⟩

/-- The spec's own example store: a Customer with balance 5.00. -/
def c5db : DB :=
  { emptyDB with
    users := [{ id := 1, username := "carol", role := "Customer", balance := 5,
                is_active := true }] }

/-- The spec's own example cart: total 10.00. -/
def c5cart : List CartItem := [{ menu_id := 1, price := 10, quantity := 1 }]

/-- Witness for C5 at the spec's example: balance 5.00 against cart total
10.00 creates nothing and fails. -/
theorem C5_insufficient_balance_witness :
    (place_order c5db 1 c5cart "somewhere" "").1 = c5db ∧
    ∃ msg, (place_order c5db 1 c5cart "somewhere" "").2 = Except.error msg :=
  C5_insufficient_balance c5db 1 c5cart "somewhere" ""
    { id := 1, username := "carol", role := "Customer", balance := 5, is_active := true }
    rfl (by simp [cartTotal, c5cart]; decide)

/-! Order status updates (claim C8). -/

/-- A store with one Pending order. -/
def c8db : DB :=
  { emptyDB with
    orders := [{ id := 1, customer_id := 3, delivery_person_id := none, status := "Pending",
                 total_amount := 20, delivery_address := "", order_notes := "" }] }

/-- A manager account. -/
def c8mgr : User :=
  { id := 9, username := "mgr", role := "Manager", balance := 0, is_active := true }

/-- C8 counterexample.  The claim says a manager may set any status; but
`update_order_status` only accepts the five values Pending / Preparing /
Ready / Out for Delivery / Delivered, so a manager setting the sixth order
status, "Cancelled", is refused and the store is unchanged. -/
theorem C8_counterexample :
    update_order_status c8db c8mgr 1 "Cancelled" = c8db ∧
    ("Cancelled" : String) ∉ allowed_statuses := by
  exact ⟨by decide, by decide⟩

/-- C8 amended: a manager may set any of the five allowed statuses; a chef
only while the order is Pending or Preparing; a delivery person only for an
order assigned to them; and every unauthorized attempt — or any attempt with
a status outside the five allowed values, by anyone — leaves the store
unchanged (the handler only flashes a message). -/
theorem C8_status_authorization (db : DB) (actor : User) (oid : Nat) (ns : String) (o : Order)
    (ho : db.orders.find? (fun x => x.id = oid) = some o) :
    (actor.role = "Manager" → ns ∈ allowed_statuses →
      update_order_status db actor oid ns =
        { db with orders := db.orders.map fun x =>
            if x.id = oid then { x with status := ns } else x }) ∧
    (actor.role = "Chef" → (o.status = "Pending" ∨ o.status = "Preparing") →
      ns ∈ allowed_statuses →
      update_order_status db actor oid ns =
        { db with orders := db.orders.map fun x =>
            if x.id = oid then { x with status := ns } else x }) ∧
    (actor.role = "DeliveryPerson" → o.delivery_person_id = some actor.id →
      ns ∈ allowed_statuses →
      update_order_status db actor oid ns =
        { db with orders := db.orders.map fun x =>
            if x.id = oid then { x with status := ns } else x }) ∧
    (¬ (actor.role = "Manager" ∨
        (actor.role = "Chef" ∧ o.status ∈ (["Pending", "Preparing"] : List String)) ∨
        (actor.role = "DeliveryPerson" ∧ o.delivery_person_id = some actor.id)) →
      update_order_status db actor oid ns = db) ∧
    (ns ∉ allowed_statuses → update_order_status db actor oid ns = db) := by
  refine ⟨?_, ?_, ?_, ?_, ?_⟩
  · intro hm hns
    simp only [update_order_status, ho]
    rw [if_pos ⟨Or.inl hm, hns⟩]
  · intro hchef hps hns
    simp only [update_order_status, ho]
    refine if_pos ⟨Or.inr (Or.inl ⟨hchef, ?_⟩), hns⟩
    rcases hps with h | h <;> simp [h]
  · intro hdel hassigned hns
    simp only [update_order_status, ho]
    exact if_pos ⟨Or.inr (Or.inr ⟨hdel, hassigned⟩), hns⟩
  · intro hno
    simp only [update_order_status, ho]
    exact if_neg fun hand => hno hand.1
  · intro hns
    simp only [update_order_status, ho]
    exact if_neg fun hand => hns hand.2

/-- A store with one Preparing order, and a chef account. -/
def c8chefdb : DB :=
  { emptyDB with
    orders := [{ id := 2, customer_id := 3, delivery_person_id := none, status := "Preparing",
                 total_amount := 20, delivery_address := "", order_notes := "" }] }

/-- A chef account. -/
def c8chef : User :=
  { id := 4, username := "cook", role := "Chef", balance := 0, is_active := true }

/-- Witness for the amended C8 at a chef updating a Preparing order. -/
theorem C8_status_authorization_witness :
    (c8chef.role = "Manager" → ("Ready" : String) ∈ allowed_statuses →
      update_order_status c8chefdb c8chef 2 "Ready" =
        { c8chefdb with orders := c8chefdb.orders.map fun x =>
            if x.id = 2 then { x with status := "Ready" } else x }) ∧
    (c8chef.role = "Chef" →
      (("Preparing" : String) = "Pending" ∨ ("Preparing" : String) = "Preparing") →
      ("Ready" : String) ∈ allowed_statuses →
      update_order_status c8chefdb c8chef 2 "Ready" =
        { c8chefdb with orders := c8chefdb.orders.map fun x =>
            if x.id = 2 then { x with status := "Ready" } else x }) ∧
    (c8chef.role = "DeliveryPerson" → (none : Option Nat) = some c8chef.id →
      ("Ready" : String) ∈ allowed_statuses →
      update_order_status c8chefdb c8chef 2 "Ready" =
        { c8chefdb with orders := c8chefdb.orders.map fun x =>
            if x.id = 2 then { x with status := "Ready" } else x }) ∧
    (¬ (c8chef.role = "Manager" ∨
        (c8chef.role = "Chef" ∧ ("Preparing" : String) ∈ (["Pending", "Preparing"] : List String)) ∨
        (c8chef.role = "DeliveryPerson" ∧ (none : Option Nat) = some c8chef.id)) →
      update_order_status c8chefdb c8chef 2 "Ready" = c8chefdb) ∧
    (("Ready" : String) ∉ allowed_statuses → update_order_status c8chefdb c8chef 2 "Ready" = c8chefdb) :=
  C8_status_authorization c8chefdb c8chef 2 "Ready"
    { id := 2, customer_id := 3, delivery_person_id := none, status := "Preparing",
      total_amount := 20, delivery_address := "", order_notes := "" }
    rfl

/-! Delivery assignment (claim C4). -/

/-- The bulk reject never changes a bid's order. -/
theorem rejectPendingBid_order_id (oid : Nat) (b : DeliveryBid) :
    (rejectPendingBid oid b).order_id = b.order_id := by
  simp only [rejectPendingBid]
  split <;> rfl

/-- A store with one Ready order (id 1) and two Pending bids on it, by
delivery persons 10 and 11. -/
def c4db : DB :=
  { emptyDB with
    orders := [{ id := 1, customer_id := 2, delivery_person_id := none, status := "Ready",
                 total_amount := 20, delivery_address := "", order_notes := "" }]
    delivery_bids :=
      [{ id := 1, order_id := 1, delivery_person_id := 10, bid_amount := none,
         status := "Pending" },
       { id := 2, order_id := 1, delivery_person_id := 11, bid_amount := none,
         status := "Pending" }] }

/-- C4 counterexample.  Assigning order 1 to delivery person 10 and then
assigning the same order again to delivery person 11 leaves TWO bids of that
order in status Accepted: nothing stops a re-assignment, and the second call
accepts the second bid without demoting the first, so it is not true that
across all operations exactly one bid per order ever reaches Accepted. -/
theorem C4_counterexample :
    ((assign_order (assign_order c4db 1 10) 1 11).delivery_bids.countP
      fun b => b.order_id = 1 ∧ b.status = "Accepted") = 2 := by
  decide

/-- Core list fact for a single assignment: starting from bids of the order
that are all Pending and containing a bid by the chosen person, the
accept-then-bulk-reject pipeline leaves exactly one Accepted bid on the
order, every other bid of the order Rejected, and only a bid of the chosen
person Accepted. -/
theorem assign_bids_core (oid pid : Nat) :
    ∀ bids : List DeliveryBid,
      (∃ b ∈ bids, b.order_id = oid ∧ b.delivery_person_id = pid) →
      (∀ b ∈ bids, b.order_id = oid → b.status = "Pending") →
      (((acceptFirstBid bids oid pid).map (rejectPendingBid oid)).countP
          (fun b => b.order_id = oid ∧ b.status = "Accepted") = 1) ∧
      (∀ b ∈ (acceptFirstBid bids oid pid).map (rejectPendingBid oid), b.order_id = oid →
        b.status = "Accepted" ∨ b.status = "Rejected") ∧
      (∀ b ∈ (acceptFirstBid bids oid pid).map (rejectPendingBid oid), b.order_id = oid →
        b.status = "Accepted" → b.delivery_person_id = pid) := by
  intro bids
  induction bids with
  | nil =>
    intro hbid _
    rcases hbid with ⟨b, hb, _⟩
    cases hb
  | cons b bs ih =>
    intro hbid hall
    by_cases hmatch : b.order_id = oid ∧ b.delivery_person_id = pid
    · have hacc : acceptFirstBid (b :: bs) oid pid = { b with status := "Accepted" } :: bs := by
        simp [acceptFirstBid, hmatch]
      have hhead : rejectPendingBid oid { b with status := "Accepted" } =
          { b with status := "Accepted" } := by
        simp [rejectPendingBid]
      have htail : ∀ y ∈ bs, y.order_id = oid →
          rejectPendingBid oid y = { y with status := "Rejected" } := by
        intro y hy hyo
        simp [rejectPendingBid, hyo, hall y (List.mem_cons_of_mem _ hy) hyo]
      rw [hacc, List.map_cons, hhead]
      refine ⟨?_, ?_, ?_⟩
      · have h0 : (bs.map (rejectPendingBid oid)).countP
            (fun x => x.order_id = oid ∧ x.status = "Accepted") = 0 := by
          rw [List.countP_eq_zero]
          intro x hx
          rcases List.mem_map.mp hx with ⟨y, hy, rfl⟩
          by_cases hyo : y.order_id = oid
          · simp [htail y hy hyo]
          · simp [rejectPendingBid_order_id, hyo]
        rw [List.countP_cons, h0]
        simp [hmatch.1]
      · intro x hx hxo
        rcases List.mem_cons.mp hx with rfl | hx
        · exact Or.inl rfl
        · rcases List.mem_map.mp hx with ⟨y, hy, rfl⟩
          by_cases hyo : y.order_id = oid
          · rw [htail y hy hyo]
            exact Or.inr rfl
          · exact absurd (by rw [← rejectPendingBid_order_id oid y]; exact hxo) hyo
      · intro x hx hxo hxacc
        rcases List.mem_cons.mp hx with rfl | hx
        · exact hmatch.2
        · rcases List.mem_map.mp hx with ⟨y, hy, rfl⟩
          by_cases hyo : y.order_id = oid
          · rw [htail y hy hyo] at hxacc
            exact absurd hxacc (by simp)
          · exact absurd (by rw [← rejectPendingBid_order_id oid y]; exact hxo) hyo
    · have hacc : acceptFirstBid (b :: bs) oid pid = b :: acceptFirstBid bs oid pid := by
        simp only [acceptFirstBid]
        rw [if_neg hmatch]
      have hbid' : ∃ x ∈ bs, x.order_id = oid ∧ x.delivery_person_id = pid := by
        rcases hbid with ⟨x, hx, hxp⟩
        rcases List.mem_cons.mp hx with rfl | hxbs
        · exact absurd hxp hmatch
        · exact ⟨x, hxbs, hxp⟩
      have hall' : ∀ x ∈ bs, x.order_id = oid → x.status = "Pending" :=
        fun x hx => hall x (List.mem_cons_of_mem _ hx)
      obtain ⟨ihc, ih2, ih3⟩ := ih hbid' hall'
      have hheadfacts : ((rejectPendingBid oid b).order_id = oid →
          (rejectPendingBid oid b).status = "Rejected") := by
        intro hxo
        have hbo : b.order_id = oid := by rw [← rejectPendingBid_order_id oid b]; exact hxo
        simp [rejectPendingBid, hbo, hall b (List.mem_cons_self b bs) hbo]
      rw [hacc, List.map_cons]
      refine ⟨?_, ?_, ?_⟩
      · rw [List.countP_cons, ihc]
        have hfalse : ¬ ((rejectPendingBid oid b).order_id = oid ∧
            (rejectPendingBid oid b).status = "Accepted") := by
          rintro ⟨h1, h2⟩
          rw [hheadfacts h1] at h2
          exact absurd h2 (by simp)
        simp [hfalse]
      · intro x hx hxo
        rcases List.mem_cons.mp hx with rfl | hx
        · exact Or.inr (hheadfacts hxo)
        · exact ih2 x hx hxo
      · intro x hx hxo hxacc
        rcases List.mem_cons.mp hx with rfl | hx
        · rw [hheadfacts hxo] at hxacc
          exact absurd hxacc (by simp)
        · exact ih3 x hx hxo hxacc

/-- C4 amended: a SINGLE assignment of an order all of whose bids are
Pending, to a person who has bid on it, accepts exactly one bid (one of that
person's), rejects every other bid on the order, and sets the order's
delivery person and status — all in one transition.  Exactly-one-Accepted
holds per assignment from an all-Pending state, not across repeated
assignments (see the counterexample). -/
theorem C4_single_assignment (db : DB) (oid pid : Nat) (o : Order)
    (ho : db.orders.find? (fun x => x.id = oid) = some o)
    (hbid : ∃ b ∈ db.delivery_bids, b.order_id = oid ∧ b.delivery_person_id = pid)
    (hall : ∀ b ∈ db.delivery_bids, b.order_id = oid → b.status = "Pending") :
    ((assign_order db oid pid).delivery_bids.countP
      fun b => b.order_id = oid ∧ b.status = "Accepted") = 1 ∧
    (∀ b ∈ (assign_order db oid pid).delivery_bids, b.order_id = oid →
      b.status = "Accepted" ∨ b.status = "Rejected") ∧
    (∀ b ∈ (assign_order db oid pid).delivery_bids, b.order_id = oid →
      b.status = "Accepted" → b.delivery_person_id = pid) ∧
    (∀ o' ∈ (assign_order db oid pid).orders, o'.id = oid →
      o'.delivery_person_id = some pid ∧ o'.status = "Out for Delivery") := by
  obtain ⟨h1, h2, h3⟩ := assign_bids_core oid pid db.delivery_bids hbid hall
  simp only [assign_order, ho]
  refine ⟨h1, h2, h3, ?_⟩
  intro o' ho' hid
  rcases List.mem_map.mp ho' with ⟨y, hy, rfl⟩
  by_cases hyid : y.id = oid
  · simp [hyid]
  · rw [if_neg hyid] at hid
    exact absurd hid hyid

/-- A store with one Ready order (id 5) and one Pending bid on it by
delivery person 10. -/
def c4wdb : DB :=
  { emptyDB with
    orders := [{ id := 5, customer_id := 2, delivery_person_id := none, status := "Ready",
                 total_amount := 20, delivery_address := "", order_notes := "" }]
    delivery_bids :=
      [{ id := 1, order_id := 5, delivery_person_id := 10, bid_amount := none,
         status := "Pending" }] }

/-- Witness for the amended C4 on `c4wdb`. -/
theorem C4_single_assignment_witness :
    ((assign_order c4wdb 5 10).delivery_bids.countP
      fun b => b.order_id = 5 ∧ b.status = "Accepted") = 1 ∧
    (∀ b ∈ (assign_order c4wdb 5 10).delivery_bids, b.order_id = 5 →
      b.status = "Accepted" ∨ b.status = "Rejected") ∧
    (∀ b ∈ (assign_order c4wdb 5 10).delivery_bids, b.order_id = 5 →
      b.status = "Accepted" → b.delivery_person_id = 10) ∧
    (∀ o' ∈ (assign_order c4wdb 5 10).orders, o'.id = 5 →
      o'.delivery_person_id = some 10 ∧ o'.status = "Out for Delivery") :=
  C4_single_assignment c4wdb 5 10
    { id := 5, customer_id := 2, delivery_person_id := none, status := "Ready",
      total_amount := 20, delivery_address := "", order_notes := "" }
    rfl (by decide) (by decide)

/-! Feedback ratings (claim C6). -/

/-- A store with one knowledge-base entry (average 0, count 0, unflagged)
and one unrated response record linked to it. -/
def c6db : DB :=
  { emptyDB with
    kb_entries := [{ id := 1, question := "q", answer := "a", rating := 0, rating_count := 0,
                     flagged := false }]
    ai_ratings := [{ id := 1, kb_entry_id := some 1, user_id := none, query := "q",
                     response := "a", rating := 0, source := "local" }] }

/-- C6 counterexample.  Rating the linked response with 5 leaves the KB
entry's stored average at 0 with count 0 even though one positive rating now
exists: a rating in [1,5] is NOT included in the entry's average by this
call (the average is only recomputed when a later zero rating arrives), so
the claim's "that rating is included in the KB entry's average" fails as
stated. -/
theorem C6_counterexample :
    (rate_ai_response c6db 1 5).2 = true ∧
    ((rate_ai_response c6db 1 5).1.ai_ratings.countP
      fun r => r.kb_entry_id = some 1 ∧ r.rating > 0) = 1 ∧
    ∀ e ∈ (rate_ai_response c6db 1 5).1.kb_entries,
      e.rating = 0 ∧ e.rating_count = 0 ∧ e.flagged = false := by
  decide

/-- C6 amended: out-of-range values are rejected with no mutation; a value
in [1,5] updates only the rating record — flagged, stored average and count
are untouched by this call (the rating participates only in a later
recomputation); a value of 0 on a record linked to an existing KB entry
flags that entry and, when at least one strictly positive linked rating
exists, recomputes its average and count over exactly those positive
ratings, leaving the stored average and count unchanged otherwise. -/
theorem C6_rating_rule (db : DB) (rid : Nat) (v : ℤ) :
    (v < 0 ∨ v > 5 → rate_ai_response db rid v = (db, false)) ∧
    (∀ rec, db.ai_ratings.find? (fun r => r.id = rid) = some rec →
      (1 ≤ v → v ≤ 5 →
        rate_ai_response db rid v =
          ({ db with ai_ratings := db.ai_ratings.map fun r =>
              if r.id = rid then { r with rating := v } else r }, true)) ∧
      (v = 0 → ∀ k, rec.kb_entry_id = some k →
        ∀ e, db.kb_entries.find? (fun x => x.id = k) = some e →
          (rate_ai_response db rid v).2 = true ∧
          ∃ e', (rate_ai_response db rid v).1.kb_entries.find? (fun x => x.id = k) = some e' ∧
            e'.flagged = true ∧
            (positiveRatings (db.ai_ratings.map fun r =>
                if r.id = rid then { r with rating := v } else r) k ≠ [] →
              e'.rating = (((positiveRatings (db.ai_ratings.map fun r =>
                  if r.id = rid then { r with rating := v } else r) k).map
                    fun r => (r.rating : ℚ)).sum) /
                  ((positiveRatings (db.ai_ratings.map fun r =>
                    if r.id = rid then { r with rating := v } else r) k).length : ℚ) ∧
              e'.rating_count = (positiveRatings (db.ai_ratings.map fun r =>
                if r.id = rid then { r with rating := v } else r) k).length) ∧
            (positiveRatings (db.ai_ratings.map fun r =>
                if r.id = rid then { r with rating := v } else r) k = [] →
              e'.rating = e.rating ∧ e'.rating_count = e.rating_count))) := by
  constructor
  · intro h
    simp only [rate_ai_response]
    rw [if_pos h]
  · intro rec hrec
    constructor
    · intro h1 h5
      simp only [rate_ai_response, hrec]
      rw [if_neg (by omega), if_neg (by omega)]
    · intro h0 k hk e he
      subst h0
      have hek : e.id = k := by
        have h := List.find?_some he
        simpa using h
      simp only [rate_ai_response, hrec, hk]
      rw [if_neg (by omega), if_pos trivial]
      simp only [he]
      refine ⟨by trivial, ?_⟩
      rw [find?_map_pres _ _ ?hg, he]
      case hg =>
        intro x
        by_cases hx : x.id = k
        · rw [if_pos hx]
          by_cases hpos : positiveRatings (db.ai_ratings.map fun r =>
              if r.id = rid then { r with rating := 0 } else r) k ≠ []
          · rw [if_pos hpos]
          · rw [if_neg hpos]
        · rw [if_neg hx]
      refine ⟨_, rfl, ?_⟩
      simp only []
      rw [if_pos hek]
      by_cases hpos : positiveRatings (db.ai_ratings.map fun r =>
          if r.id = rid then { r with rating := 0 } else r) k ≠ []
      · rw [if_pos hpos]
        exact ⟨rfl, fun _ => ⟨rfl, rfl⟩, fun habs => absurd habs hpos⟩
      · rw [if_neg hpos]
        exact ⟨rfl, fun hne => absurd hne hpos, fun _ => ⟨rfl, rfl⟩⟩

/-- A store with a KB entry (id 1) carrying average 4 from one positive
rating (id 1), plus a second, still unrated response record (id 2). -/
def c6wdb : DB :=
  { emptyDB with
    kb_entries := [{ id := 1, question := "q", answer := "a", rating := 4, rating_count := 1,
                     flagged := false }]
    ai_ratings := [{ id := 1, kb_entry_id := some 1, user_id := none, query := "q",
                     response := "a", rating := 4, source := "local" },
                   { id := 2, kb_entry_id := some 1, user_id := none, query := "q",
                     response := "a", rating := 0, source := "local" }] }

/-- Witness for the amended C6: a zero rating on record 2 of `c6wdb` flags
entry 1 and recomputes its average over the remaining positive rating. -/
theorem C6_rating_rule_witness :
    (rate_ai_response c6wdb 2 0).2 = true ∧
    ∃ e', (rate_ai_response c6wdb 2 0).1.kb_entries.find? (fun x => x.id = 1) = some e' ∧
      e'.flagged = true ∧
      (positiveRatings (c6wdb.ai_ratings.map fun r =>
          if r.id = 2 then { r with rating := 0 } else r) 1 ≠ [] →
        e'.rating = (((positiveRatings (c6wdb.ai_ratings.map fun r =>
            if r.id = 2 then { r with rating := 0 } else r) 1).map
              fun r => (r.rating : ℚ)).sum) /
            ((positiveRatings (c6wdb.ai_ratings.map fun r =>
              if r.id = 2 then { r with rating := 0 } else r) 1).length : ℚ) ∧
        e'.rating_count = (positiveRatings (c6wdb.ai_ratings.map fun r =>
          if r.id = 2 then { r with rating := 0 } else r) 1).length) ∧
      (positiveRatings (c6wdb.ai_ratings.map fun r =>
          if r.id = 2 then { r with rating := 0 } else r) 1 = [] →
        e'.rating = (4 : ℚ) ∧ e'.rating_count = 1) :=
  ((C6_rating_rule c6wdb 2 0).2
    { id := 2, kb_entry_id := some 1, user_id := none, query := "q",
      response := "a", rating := 0, source := "local" } rfl).2 rfl 1 rfl
    { id := 1, question := "q", answer := "a", rating := 4, rating_count := 1,
      flagged := false } rfl

/-! Knowledge-base lookup (claim C7): supporting lemmas. -/

/-- Chunks produced by the whitespace split are nonempty and contain no
whitespace characters. -/
theorem wsSplitAux_spec :
    ∀ (l acc : List Char), (∀ c ∈ acc, c.isWhitespace = false) →
      ∀ w ∈ wsSplitAux acc l, w ≠ [] ∧ ∀ c ∈ w, c.isWhitespace = false := by
  intro l
  induction l with
  | nil =>
    intro acc hacc w hw
    simp only [wsSplitAux] at hw
    by_cases hne : acc = []
    · rw [if_pos hne] at hw
      cases hw
    · rw [if_neg hne] at hw
      rcases List.mem_singleton.mp hw with rfl
      refine ⟨by simpa using hne, ?_⟩
      intro c hc
      exact hacc c (List.mem_reverse.mp hc)
  | cons c rest ih =>
    intro acc hacc w hw
    simp only [wsSplitAux] at hw
    by_cases hws : c.isWhitespace = true
    · rw [if_pos hws] at hw
      by_cases hne : acc = []
      · rw [if_pos hne] at hw
        exact ih [] (by intro x hx; cases hx) w hw
      · rw [if_neg hne] at hw
        rcases List.mem_cons.mp hw with rfl | hw
        · refine ⟨by simpa using hne, ?_⟩
          intro x hx
          exact hacc x (List.mem_reverse.mp hx)
        · exact ih [] (by intro x hx; cases hx) w hw
    · rw [if_neg hws] at hw
      refine ih (c :: acc) ?_ w hw
      intro x hx
      rcases List.mem_cons.mp hx with rfl | hx
      · simpa using hws
      · exact hacc x hx

/-- Every token produced by the query tokenization is nonempty and
whitespace-free. -/
theorem query_tokens_spec (query : String) :
    ∀ w ∈ query_tokens query, w.data ≠ [] ∧ ∀ c ∈ w.data, c.isWhitespace = false := by
  intro w hw
  have hbase : ∀ v ∈ pySplitWS (pyLower query),
      v.data ≠ [] ∧ ∀ c ∈ v.data, c.isWhitespace = false := by
    intro v hv
    rcases List.mem_map.mp hv with ⟨l, hl, rfl⟩
    exact wsSplitAux_spec _ [] (by intro x hx; cases hx) l hl
  simp only [query_tokens] at hw
  by_cases hemp : (pySplitWS (pyLower query)).filter
      (fun w => w ∉ stop_words ∧ w.length > 2) = []
  · rw [if_pos hemp] at hw
    exact hbase w hw
  · rw [if_neg hemp] at hw
    exact hbase w (List.mem_of_mem_filter hw)

/-- The head of a contained nonempty substring occurs in the haystack. -/
theorem containsSub_head_mem :
    ∀ (hay nd : List Char) (c : Char), containsSub (c :: nd) hay = true → c ∈ hay := by
  intro hay
  induction hay with
  | nil =>
    intro nd c h
    simp [containsSub, List.isEmpty] at h
  | cons d rest ih =>
    intro nd c h
    rcases Bool.or_eq_true_iff.mp h with hpre | hrec
    · have : (c = d ∧ isPre nd rest = true) := by simpa [isPre] using hpre
      rw [this.1]
      exact List.mem_cons_self d rest
    · exact List.mem_cons_of_mem _ (ih nd c hrec)

/-- Lowercasing never turns a non-whitespace character into whitespace (it
fixes every character outside the basic latin uppercase range). -/
theorem toLower_whitespace (c : Char) (h : c.isWhitespace = true) : c.toLower = c := by
  have h4 : ((c = ' ' ∨ c = '\t') ∨ c = '\r') ∨ c = '\n' := by
    simpa [Char.isWhitespace] using h
  rcases h4 with ((rfl | rfl) | rfl) | rfl <;> decide

/-- If a list contains a non-whitespace character, the stripped list is
nonempty. -/
theorem stripChars_ne_nil (l : List Char) (h : ∃ c ∈ l, c.isWhitespace = false) :
    stripChars l ≠ [] := by
  have hdrop : ∀ (m : List Char), (∃ c ∈ m, c.isWhitespace = false) →
      ∃ c ∈ m.dropWhile (fun c => c.isWhitespace), c.isWhitespace = false := by
    intro m
    induction m with
    | nil =>
      intro hm
      rcases hm with ⟨c, hc, _⟩
      cases hc
    | cons a t ih =>
      intro hm
      by_cases hpa : a.isWhitespace = true
      · rw [List.dropWhile_cons_of_pos hpa]
        rcases hm with ⟨c, hc, hcw⟩
        rcases List.mem_cons.mp hc with rfl | hc
        · rw [hpa] at hcw
          cases hcw
        · exact ih ⟨c, hc, hcw⟩
      · rw [List.dropWhile_cons_of_neg hpa]
        exact ⟨a, List.mem_cons_self a t, by simpa using hpa⟩
  have h1 := hdrop l h
  have h2 : ∃ c ∈ (l.dropWhile (fun c => c.isWhitespace)).reverse,
      c.isWhitespace = false := by
    rcases h1 with ⟨c, hc, hcw⟩
    exact ⟨c, List.mem_reverse.mpr hc, hcw⟩
  have h3 := hdrop _ h2
  rcases h3 with ⟨c, hc, _⟩
  simp only [stripChars]
  intro habs
  rw [List.reverse_eq_nil_iff] at habs
  rw [habs] at hc
  cases hc

/-- A paragraph with positive keyword score strips to a nonempty string. -/
theorem keyword_score_pos_strip (qws : List String) (p : String)
    (hts : ∀ w ∈ qws, w.data ≠ [] ∧ ∀ c ∈ w.data, c.isWhitespace = false)
    (hsc : 0 < keyword_score qws p) : pyStrip p ≠ "" := by
  rcases List.countP_pos_iff.mp hsc with ⟨w, hwmem, hwc⟩
  have hw := hts w hwmem
  have hcontains : containsSub w.data (pyLower p).data = true := by
    simpa [strContains] using hwc
  obtain ⟨c, nd, hcnd⟩ : ∃ c nd, w.data = c :: nd := by
    cases hdata : w.data with
    | nil => exact absurd hdata hw.1
    | cons c nd => exact ⟨c, nd, rfl⟩
  rw [hcnd] at hcontains
  have hcmem : c ∈ (pyLower p).data := containsSub_head_mem _ nd c hcontains
  have hcnw : c.isWhitespace = false := hw.2 c (by rw [hcnd]; exact List.mem_cons_self c nd)
  have hcmem' : c ∈ p.data.map Char.toLower := hcmem
  rcases List.mem_map.mp hcmem' with ⟨c0, hc0, rfl⟩
  have hc0nw : c0.isWhitespace = false := by
    by_cases hws : c0.isWhitespace = true
    · rw [toLower_whitespace c0 hws] at hcnw
      rw [hws] at hcnw
      cases hcnw
    · simpa using hws
  intro habs
  have : stripChars p.data = [] := congrArg String.data habs
  exact stripChars_ne_nil p.data ⟨c0, hc0, hc0nw⟩ this

/-- Membership in a stable descending insertion. -/
theorem mem_insertDesc (a x : Nat × String) :
    ∀ l : List (Nat × String), x ∈ insertDesc a l ↔ x = a ∨ x ∈ l := by
  intro l
  induction l with
  | nil => simp [insertDesc]
  | cons y ys ih =>
    simp only [insertDesc]
    by_cases hge : a.1 ≥ y.1
    · rw [if_pos hge]
      simp
    · rw [if_neg hge]
      rw [List.mem_cons, List.mem_cons, ih]
      tauto

/-- Membership in the stable descending sort. -/
theorem mem_sortDesc (x : Nat × String) :
    ∀ l : List (Nat × String), x ∈ sortDesc l ↔ x ∈ l := by
  intro l
  induction l with
  | nil => simp [sortDesc]
  | cons y ys ih =>
    simp only [sortDesc]
    rw [mem_insertDesc, ih, List.mem_cons]

/-- Inserting preserves descending order. -/
theorem pairwise_insertDesc (a : Nat × String) :
    ∀ l : List (Nat × String), l.Pairwise (fun x y => y.1 ≤ x.1) →
      (insertDesc a l).Pairwise (fun x y => y.1 ≤ x.1) := by
  intro l
  induction l with
  | nil =>
    intro _
    simp [insertDesc]
  | cons y ys ih =>
    intro h
    rcases List.pairwise_cons.mp h with ⟨hy, hys⟩
    simp only [insertDesc]
    by_cases hge : a.1 ≥ y.1
    · rw [if_pos hge]
      refine List.pairwise_cons.mpr ⟨?_, h⟩
      intro z hz
      rcases List.mem_cons.mp hz with rfl | hz
      · exact hge
      · exact le_trans (hy z hz) hge
    · rw [if_neg hge]
      refine List.pairwise_cons.mpr ⟨?_, ih hys⟩
      intro z hz
      rcases (mem_insertDesc a z ys).mp hz with rfl | hz
      · omega
      · exact hy z hz

/-- The stable descending sort is descending. -/
theorem pairwise_sortDesc :
    ∀ l : List (Nat × String), (sortDesc l).Pairwise (fun x y => y.1 ≤ x.1) := by
  intro l
  induction l with
  | nil => simp [sortDesc]
  | cons y ys ih => exact pairwise_insertDesc y (sortDesc ys) ih

/-- Characterization of the paragraph candidate list: its elements are
exactly the score/stripped-text pairs of the positively scoring
paragraphs. -/
theorem mem_best_matches (qws : List String) (paras : List String) (x : Nat × String) :
    x ∈ best_matches qws paras ↔
      ∃ p ∈ paras, 0 < keyword_score qws p ∧ x = (keyword_score qws p, pyStrip p) := by
  rw [best_matches, mem_sortDesc, List.mem_filterMap]
  constructor
  · rintro ⟨p, hp, hx⟩
    by_cases hm : 0 < keyword_score qws p
    · rw [if_pos hm] at hx
      exact ⟨p, hp, hm, (Option.some.injEq _ _).mp hx |>.symm⟩
    · rw [if_neg hm] at hx
      cases hx
  · rintro ⟨p, hp, hm, rfl⟩
    exact ⟨p, hp, by rw [if_pos hm]⟩

/-- The head of the sorted candidate list dominates every paragraph's
score. -/
theorem best_matches_head_max (qws : List String) (paras : List String)
    (t : Nat × String) (rest : List (Nat × String))
    (hbm : best_matches qws paras = t :: rest) :
    ∀ q ∈ paras, keyword_score qws q ≤ t.1 := by
  intro q hq
  by_cases hm : 0 < keyword_score qws q
  · have hmem : (keyword_score qws q, pyStrip q) ∈ best_matches qws paras :=
      (mem_best_matches qws paras _).mpr ⟨q, hq, hm, rfl⟩
    rw [hbm] at hmem
    rcases List.mem_cons.mp hmem with heq | hmem
    · rw [← heq]
    · have hpair := pairwise_sortDesc ((paras.filterMap fun para =>
        let m := keyword_score qws para
        if m > 0 then some (m, pyStrip para) else none))
      rw [show sortDesc (paras.filterMap fun para =>
          let m := keyword_score qws para
          if m > 0 then some (m, pyStrip para) else none) = best_matches qws paras from rfl,
        hbm] at hpair
      exact (List.pairwise_cons.mp hpair).1 _ hmem
  · omega

/-- The paragraph-stage threshold `score ≥ 0.5 × token_count` over the exact
rationals coincides with the integer test `tokens ≤ 2 × score`. -/
theorem half_threshold (s n : Nat) : ((n : ℚ) * 0.5 ≤ (s : ℚ)) ↔ n ≤ 2 * s := by
  have h05 : (0.5 : ℚ) = 1 / 2 := by norm_num
  rw [h05]
  constructor
  · intro h
    have : (n : ℚ) ≤ 2 * s := by linarith
    exact_mod_cast this
  · intro h
    have : (n : ℚ) ≤ 2 * s := by exact_mod_cast h
    linarith

/-- The runner-up threshold `score ≥ 0.3 × token_count` over the exact
rationals coincides with the integer test `3 × tokens ≤ 10 × score`. -/
theorem three_tenths_threshold (s n : Nat) :
    ((n : ℚ) * 0.3 ≤ (s : ℚ)) ↔ 3 * n ≤ 10 * s := by
  have h03 : (0.3 : ℚ) = 3 / 10 := by norm_num
  rw [h03]
  constructor
  · intro h
    have : (3 * n : ℚ) ≤ 10 * s := by linarith
    exact_mod_cast this
  · intro h
    have : (3 * n : ℚ) ≤ 10 * s := by exact_mod_cast h
    linarith

/-- A locally found nonempty answer is returned verbatim by
`get_ai_response` with source tag `local`. -/
theorem get_ai_response_of_local (db : DB) (cfg : AIConfig) (corpus query : String)
    (uid : Option Nat) (out : String)
    (hsearch : search_local_knowledge_base (some corpus) query = some out)
    (hne : out ≠ "") :
    (get_ai_response db cfg (some corpus) query uid).2.1 = out ∧
    (get_ai_response db cfg (some corpus) query uid).2.2.1 = "local" := by
  simp only [get_ai_response, hsearch, Option.getD_some]
  rw [if_neg hne]
  exact ⟨rfl, rfl⟩

/-- C7.  For a query with surviving tokens, whenever some paragraph of the
corpus contains at least half of the tokens (`tokens ≤ 2 × score`, the
integer form of `score ≥ ceil(0.5 × token_count)`), the knowledge-base
search succeeds, `get_ai_response` returns the result with source `local`,
and that result is the stripped text of a paragraph of maximal score —
either alone, or followed (top first, blank-line separated) by a second
paragraph, the latter only when that second paragraph scores at least 0.3 ×
token_count (integer form `3 × tokens ≤ 10 × score`). -/
theorem C7_kb_paragraph_lookup (corpus query : String) (db : DB) (cfg : AIConfig)
    (uid : Option Nat)
    (htok : query_tokens query ≠ [])
    (hhit : ∃ p ∈ pyParagraphs corpus,
      (query_tokens query).length ≤ 2 * keyword_score (query_tokens query) p) :
    ∃ top ∈ pyParagraphs corpus,
      (∀ q ∈ pyParagraphs corpus,
        keyword_score (query_tokens query) q ≤ keyword_score (query_tokens query) top) ∧
      (query_tokens query).length ≤ 2 * keyword_score (query_tokens query) top ∧
      ∃ out, search_local_knowledge_base (some corpus) query = some out ∧
        (get_ai_response db cfg (some corpus) query uid).2.1 = out ∧
        (get_ai_response db cfg (some corpus) query uid).2.2.1 = "local" ∧
        (out = pyStrip top ∨
          ∃ snd ∈ pyParagraphs corpus,
            3 * (query_tokens query).length ≤
              10 * keyword_score (query_tokens query) snd ∧
            out = pyStrip top ++ "\n\n" ++ pyStrip snd) := by
  obtain ⟨p₀, hp₀, hs₀⟩ := hhit
  have hn : 0 < (query_tokens query).length := List.length_pos.mpr htok
  have hsc₀ : 0 < keyword_score (query_tokens query) p₀ := by omega
  have hbm_mem : (keyword_score (query_tokens query) p₀, pyStrip p₀) ∈
      best_matches (query_tokens query) (pyParagraphs corpus) :=
    (mem_best_matches _ _ _).mpr ⟨p₀, hp₀, hsc₀, rfl⟩
  obtain ⟨t, rest, hbm⟩ : ∃ t rest,
      best_matches (query_tokens query) (pyParagraphs corpus) = t :: rest := by
    cases h : best_matches (query_tokens query) (pyParagraphs corpus) with
    | nil =>
      rw [h] at hbm_mem
      cases hbm_mem
    | cons t rest => exact ⟨t, rest, rfl⟩
  obtain ⟨pt, hpt, hptpos, htEq⟩ :=
    (mem_best_matches _ _ t).mp (by rw [hbm]; exact List.mem_cons_self t rest)
  have hmax : ∀ q ∈ pyParagraphs corpus,
      keyword_score (query_tokens query) q ≤ keyword_score (query_tokens query) pt := by
    intro q hq
    have h := best_matches_head_max _ _ t rest hbm q hq
    rwa [htEq] at h
  have hthr : (query_tokens query).length ≤ 2 * keyword_score (query_tokens query) pt := by
    have := hmax p₀ hp₀
    omega
  have hthrQ : (t.1 : ℚ) ≥ ((query_tokens query).length : ℚ) * 0.5 := by
    rw [htEq]
    exact (half_threshold _ _).mpr hthr
  have hts := query_tokens_spec query
  have hne_top : pyStrip pt ≠ "" := keyword_score_pos_strip _ _ hts hptpos
  have hne_t2 : t.2 ≠ "" := by
    rw [htEq]
    exact hne_top
  refine ⟨pt, hpt, hmax, hthr, ?_⟩
  cases rest with
  | nil =>
    have hsearch : search_local_knowledge_base (some corpus) query = some t.2 := by
      simp only [search_local_knowledge_base, hbm]
      rw [if_pos hthrQ]
    obtain ⟨hans, hsrc⟩ := get_ai_response_of_local db cfg corpus query uid t.2 hsearch hne_t2
    exact ⟨t.2, hsearch, hans, hsrc, Or.inl (by rw [htEq])⟩
  | cons second rest2 =>
    by_cases h2 : (second.1 : ℚ) ≥ ((query_tokens query).length : ℚ) * 0.3
    · obtain ⟨ps, hps, hpspos, hsEq⟩ := (mem_best_matches _ _ second).mp
        (by rw [hbm]; exact List.mem_cons_of_mem t (List.mem_cons_self second rest2))
      have hsearch : search_local_knowledge_base (some corpus) query =
          some (t.2 ++ "\n\n" ++ second.2) := by
        simp only [search_local_knowledge_base, hbm]
        rw [if_pos hthrQ, if_pos h2]
      have hne_cat : t.2 ++ "\n\n" ++ second.2 ≠ "" := by
        intro habs
        have hd := congrArg String.data habs
        rw [String.data_append, String.data_append] at hd
        rcases List.append_eq_nil.mp (List.append_eq_nil.mp hd).1 with ⟨_, habs2⟩
        exact absurd habs2 (by decide)
      obtain ⟨hans, hsrc⟩ :=
        get_ai_response_of_local db cfg corpus query uid _ hsearch hne_cat
      refine ⟨_, hsearch, hans, hsrc, Or.inr ⟨ps, hps, ?_, ?_⟩⟩
      · have h2' := (three_tenths_threshold second.1 (query_tokens query).length).mp h2
        rwa [hsEq] at h2'
      · rw [htEq, hsEq]
    · have hsearch : search_local_knowledge_base (some corpus) query = some t.2 := by
        simp only [search_local_knowledge_base, hbm]
        rw [if_pos hthrQ, if_neg h2]
      obtain ⟨hans, hsrc⟩ :=
        get_ai_response_of_local db cfg corpus query uid t.2 hsearch hne_t2
      exact ⟨t.2, hsearch, hans, hsrc, Or.inl (by rw [htEq])⟩

/-- Witness for C7 at the spec's worked example: corpus
"We offer free delivery on orders over $30." and query "Is delivery free?"
("is" is a stop word; the surviving tokens are "delivery" and "free?", of
which the single paragraph contains "delivery", exactly half). -/
theorem C7_kb_paragraph_lookup_witness :
    ∃ top ∈ pyParagraphs "We offer free delivery on orders over $30.",
      (∀ q ∈ pyParagraphs "We offer free delivery on orders over $30.",
        keyword_score (query_tokens "Is delivery free?") q ≤
          keyword_score (query_tokens "Is delivery free?") top) ∧
      (query_tokens "Is delivery free?").length ≤
        2 * keyword_score (query_tokens "Is delivery free?") top ∧
      ∃ out, search_local_knowledge_base
          (some "We offer free delivery on orders over $30.") "Is delivery free?" =
            some out ∧
        (get_ai_response emptyDB ⟨false, fun _ => ""⟩
          (some "We offer free delivery on orders over $30.")
          "Is delivery free?" none).2.1 = out ∧
        (get_ai_response emptyDB ⟨false, fun _ => ""⟩
          (some "We offer free delivery on orders over $30.")
          "Is delivery free?" none).2.2.1 = "local" ∧
        (out = pyStrip top ∨
          ∃ snd ∈ pyParagraphs "We offer free delivery on orders over $30.",
            3 * (query_tokens "Is delivery free?").length ≤
              10 * keyword_score (query_tokens "Is delivery free?") snd ∧
            out = pyStrip top ++ "\n\n" ++ pyStrip snd) :=
  C7_kb_paragraph_lookup "We offer free delivery on orders over $30." "Is delivery free?"
    emptyDB ⟨false, fun _ => ""⟩ none (by decide) (by decide)

end OnlineRestaurant
